import Mathlib

/-!
Verification development for the x402 payment-verification core exposed by
src/nginx/x402_ffi.h.  The repository ships only the C boundary header
(function declarations, parameter conventions and numeric return codes); the
implementation behind it is not part of the source tree, so every definition
below is modelled from the specification document, faithful to its words, and
the boundary conventions (return codes 0..5, buffer/length protocol) are taken
from the header comments.
-/

namespace X402

/-- Modelled from the spec: the amount-matching policy, `exact` vs `upto`. -/
inductive Scheme where
  | exact
  | upto
deriving DecidableEq

/-- Modelled from the spec: the signed authorization carried by a payment
payload: from/to addresses, value in base units, time window, nonce. -/
structure Authorization where
  from_ : String
  to_ : String
  value : Nat
  validAfter : Nat
  validBefore : Nat
  nonce : String
deriving DecidableEq

/-- Modelled from the spec: a decoded client payment payload. -/
structure PaymentPayload where
  scheme : Scheme
  network : String
  authorization : Authorization
  signature : String
deriving DecidableEq

/-- Modelled from the spec: server-declared payment requirements
(immutable value object built by RequirementsModel). -/
structure PaymentRequirements where
  scheme : Scheme
  network : String
  maxAmountRequired : Nat
  resource : String
  description : Option String
  mimeType : String
  payTo : String
  maxTimeoutSeconds : Nat
  asset : String
  extra : String
deriving DecidableEq

/-- Modelled from the spec: the fixed enumerated set of invalid reasons
produced by the verification engine; a facilitator rejection carries the
remote reason string. -/
inductive InvalidReason where
  | scheme_mismatch
  | network_mismatch
  | insufficient_amount
  | recipient_mismatch
  | not_yet_valid
  | expired
  | nonce_reused
  | bad_signature
  | facilitator_rejected (remote : Option String)
deriving DecidableEq

/-- Modelled from the spec: VerificationResult with `isValid`,
`invalidReason` (present iff invalid) and `payer` (present iff valid). -/
structure VerificationResult where
  isValid : Bool
  invalidReason : Option InvalidReason
  payer : Option String
deriving DecidableEq

def invalidResult (r : InvalidReason) : VerificationResult :=
  ⟨false, some r, none⟩

def validResult (payer : String) : VerificationResult :=
  ⟨true, none, some payer⟩

/-- Modelled from the spec: process-lifetime replay cache, a set of seen
(network, nonce) pairs; `none` means no cache is configured. -/
abbrev NonceCache := List (String × String)

/-- Modelled from the spec: outcome of one facilitator wire attempt —
a well-formed JSON verdict, a timeout, a connection-level failure, or a
well-formed non-2xx error response. -/
inductive FacAttempt where
  | response (isValid : Bool) (reason : Option String)
  | timeout
  | connectionFailure
  | httpError
deriving DecidableEq

/-- Modelled from the spec: the facilitator oracle standing for the remote
service reachable at the configured facilitator URL; the two components are
the outcomes of the first attempt and of the single retry. -/
structure FacOracle where
  attempt1 : FacAttempt
  attempt2 : FacAttempt
deriving DecidableEq

/-- A transient connection-level failure (timeout, connection refused or
reset), which is retried exactly once. -/
def FacAttempt.transient : FacAttempt → Bool
  | .timeout => true
  | .connectionFailure => true
  | _ => false

/-- Modelled from the spec: result of the FacilitatorClient after its
retry policy — either a definitive verdict or a distinguished error. -/
inductive FacResult where
  | verdict (isValid : Bool) (reason : Option String)
  | facError
deriving DecidableEq

/-- Modelled from the spec (§4.4 FacilitatorClient): one bounded-timeout
attempt, retried exactly once on a transient connection-level failure and
not at all on a well-formed error response; a persistent failure becomes
the distinguished facilitator error, never an `isValid = false` verdict. -/
def facilitatorVerify (o : FacOracle) : FacResult :=
  match o.attempt1 with
  | .response v r => .verdict v r
  | .httpError => .facError
  | .timeout | .connectionFailure =>
    match o.attempt2 with
    | .response v r => .verdict v r
    | _ => .facError

/-- Modelled from the spec: the amount check — `exact` requires equality
with `maxAmountRequired`, `upto` requires being at most it. -/
def amountOk : Scheme → Nat → Nat → Bool
  | .exact, v, m => v == m
  | .upto, v, m => v ≤ m

/-- Whether the (network, nonce) pair of the payload is already recorded in
the replay cache (false when no cache is configured). -/
def nonceSeen (p : PaymentPayload) (cache : Option NonceCache) : Bool :=
  match cache with
  | none => false
  | some seen => (p.network, p.authorization.nonce) ∈ seen

/-- Record the payload nonce in the replay cache, when one is configured. -/
def recordNonce (p : PaymentPayload) (cache : Option NonceCache) : Option NonceCache :=
  match cache with
  | none => none
  | some seen => some ((p.network, p.authorization.nonce) :: seen)

/-- Modelled from the spec: the signing digest recomputed over the canonical
authorization fields together with the domain parameters carried in
`requirements.extra`; local verification accepts exactly when the payload
signature equals this digest. -/
def signingDigest (auth : Authorization) (extra : String) : String :=
  "x402|" ++ extra ++ "|" ++ auth.from_ ++ "|" ++ auth.to_ ++ "|" ++
    toString auth.value ++ "|" ++ toString auth.validAfter ++ "|" ++
    toString auth.validBefore ++ "|" ++ auth.nonce

/-- Modelled from the spec (§4.3 steps 1–5): the ordered local cross-checks,
short-circuiting at the first failure; `none` means every local check
passed. -/
def checkLocal (p : PaymentPayload) (req : PaymentRequirements)
    (cache : Option NonceCache) (now : Nat) : Option InvalidReason :=
  if p.scheme ≠ req.scheme then some .scheme_mismatch
  else if p.network ≠ req.network then some .network_mismatch
  else if amountOk p.scheme p.authorization.value req.maxAmountRequired = false then
    some .insufficient_amount
  else if p.authorization.to_ ≠ req.payTo then some .recipient_mismatch
  else if now < p.authorization.validAfter then some .not_yet_valid
  else if p.authorization.validBefore < now then some .expired
  else if nonceSeen p cache then some .nonce_reused
  else none

/-- Outcome of the verification engine: a verification result, or the
distinguished facilitator error. -/
inductive EngineOutcome where
  | ok (r : VerificationResult)
  | facilitatorError
deriving DecidableEq

/-- Engine outcome together with whether a facilitator round trip happened
and the replay cache after the call. -/
structure VerifyTrace where
  outcome : EngineOutcome
  facCalled : Bool
  cache : Option NonceCache
deriving DecidableEq

/-- Modelled from the spec (§4.3 VerificationEngine): ordered local checks
first, short-circuiting at the first failure with its specific reason and no
facilitator round trip; only when every local check passes is the nonce
recorded and the authorization question settled, by the facilitator when a
facilitator URL was supplied (`facilitator = some oracle`) and by local
signature verification otherwise. -/
def verify (p : PaymentPayload) (req : PaymentRequirements)
    (facilitator : Option FacOracle) (cache : Option NonceCache) (now : Nat) :
    VerifyTrace :=
  match checkLocal p req cache now with
  | some reason => ⟨.ok (invalidResult reason), false, cache⟩
  | none =>
    let cache1 := recordNonce p cache
    match facilitator with
    | some o =>
      match facilitatorVerify o with
      | .facError => ⟨.facilitatorError, true, cache1⟩
      | .verdict true _ => ⟨.ok (validResult p.authorization.from_), true, cache1⟩
      | .verdict false r => ⟨.ok (invalidResult (.facilitator_rejected r)), true, cache1⟩
    | none =>
      if p.signature = signingDigest p.authorization req.extra then
        ⟨.ok (validResult p.authorization.from_), false, cache1⟩
      else
        ⟨.ok (invalidResult .bad_signature), false, cache1⟩

/-! ### Decimal strings and base-10 digits -/

/-- The character for a single decimal digit. -/
def digitChar (d : Nat) : Char := Char.ofNat (48 + d)

/-- Numeric value of a decimal digit character. -/
def charVal (c : Char) : Nat := c.toNat - 48

/-- Big-endian decimal digit characters of `n`, with `fuel` bounding the
recursion depth (any `fuel > n` gives the exact digits). -/
def toDigitsAux : Nat → Nat → List Char
  | 0, _ => []
  | fuel + 1, n => if n = 0 then [] else toDigitsAux fuel (n / 10) ++ [digitChar (n % 10)]

/-- Canonical base-10 rendering of a natural number. -/
def natToStr (n : Nat) : String :=
  if n = 0 then "0" else String.mk (toDigitsAux (n + 1) n)

/-- Value of a big-endian list of decimal digit characters. -/
def digitsVal (cs : List Char) : Nat :=
  cs.foldl (fun a c => 10 * a + charVal c) 0

/-- Parse a nonempty all-digit character list. -/
def parseDigits (cs : List Char) : Option Nat :=
  if cs ≠ [] ∧ cs.all Char.isDigit then some (digitsVal cs) else none

/-- Parse a base-10 unsigned integer string. -/
def strToNat (s : String) : Option Nat := parseDigits s.data

/-- Modelled from the spec (§4.2 RequirementsModel): parse a non-negative
decimal string with at most `precision` fractional digits into the integer
base-unit amount, scaling by `10 ^ precision`; anything else is rejected. -/
def parseDecimal (s : String) (precision : Nat) : Option Nat :=
  let intPart := s.data.takeWhile (fun c => c ≠ '.')
  match s.data.dropWhile (fun c => c ≠ '.') with
  | [] => (parseDigits intPart).map (· * 10 ^ precision)
  | _ :: fracPart =>
    if fracPart.length ≤ precision then
      match parseDigits intPart, parseDigits fracPart with
      | some i, some f => some (i * 10 ^ precision + f * 10 ^ (precision - fracPart.length))
      | _, _ => none
    else none

/-! ### Requirements construction -/

/-- Modelled from the spec: the recognized network identifiers, a canonical
production network and its sandbox counterpart. -/
def knownNetworks : List String := ["base", "base-sepolia"]

/-- Modelled from the spec: the network used when none is given explicitly. -/
def defaultNetwork (testnet : Bool) : String :=
  if testnet then "base-sepolia" else "base"

/-- Resolve the effective network: an explicit network must be recognized
and overrides the testnet flag; otherwise the default is used. -/
def resolveNetwork (network : Option String) (testnet : Bool) : Option String :=
  match network with
  | some nw => if nw ∈ knownNetworks then some nw else none
  | none => some (defaultNetwork testnet)

/-- A hexadecimal digit character. -/
def isHexDigitChar (c : Char) : Bool :=
  c.isDigit || ('a' ≤ c && c ≤ 'f') || ('A' ≤ c && c ≤ 'F')

/-- Modelled from the spec: the address format rule — 0x followed by
40 hexadecimal digits. -/
def isValidAddress (s : String) : Bool :=
  match s.data with
  | '0' :: 'x' :: rest => rest.length == 40 && rest.all isHexDigitChar
  | _ => false

/-- Modelled from the spec: the declared decimal precision of the asset. -/
def assetPrecision : Nat := 6

/-- Modelled from the spec: the contract/denomination identifier of the
asset on the given network. -/
def assetId (network : String) : String := "USDC-" ++ network

/-- Modelled from the spec: opaque scheme-specific metadata carrying the
signing domain parameters. -/
def domainExtra : String := "name=USD Coin;version=2"

/-- Modelled from the spec (§4.2 RequirementsModel `build`): validate the
decimal amount, the recipient address and the network, apply defaults, and
construct the immutable requirements value; any validation failure yields
`none` (the boundary reports it as invalid input). -/
def buildRequirements (amount payTo : String) (network resource description : Option String)
    (testnet : Bool) : Option PaymentRequirements :=
  match parseDecimal amount assetPrecision with
  | none => none
  | some units =>
    if isValidAddress payTo then
      match resolveNetwork network testnet with
      | none => none
      | some nw =>
        some { scheme := .exact
               network := nw
               maxAmountRequired := units
               resource := resource.getD "/"
               description := description
               mimeType := "application/json"
               payTo := payTo
               maxTimeoutSeconds := 60
               asset := assetId nw
               extra := domainExtra }
    else none

/-! ### Canonical JSON documents -/

/-- Shallow embedding of the JSON documents the core emits. -/
inductive Json where
  | null
  | bool (b : Bool)
  | num (n : Nat)
  | str (s : String)
  | arr (xs : List Json)
  | obj (fields : List (String × Json))

/-- Lower-case hexadecimal digit character. -/
def hexDigitChar (d : Nat) : Char :=
  if d < 10 then digitChar d else Char.ofNat (87 + d)

/-- JSON escaping of one character: the quote, the backslash and every
control character are replaced by a `\u00XX` unit; all other characters pass
through unchanged. -/
def escJsonChar (c : Char) : List Char :=
  if c = '"' || c = '\\' || c.toNat < 32 then
    ['\\', 'u', '0', '0', hexDigitChar (c.toNat / 16), hexDigitChar (c.toNat % 16)]
  else [c]

/-- JSON escaping of a character list. -/
def jsonEscapeList : List Char → List Char
  | [] => []
  | c :: cs => escJsonChar c ++ jsonEscapeList cs

/-- Modelled from the spec: escaping applied to every string embedded in
rendered JSON output. -/
def jsonEscape (s : String) : String := String.mk (jsonEscapeList s.data)

/-- Opening brace of a JSON object. -/
def lbrace : String := "\x7b"

/-- Closing brace of a JSON object. -/
def rbrace : String := "\x7d"

mutual

/-- Modelled from the spec: canonical JSON serialization — fixed field
order, fixed key casing, strings escaped. -/
def serializeJson : Json → String
  | .null => "null"
  | .bool b => cond b "true" "false"
  | .num n => natToStr n
  | .str s => "\"" ++ jsonEscape s ++ "\""
  | .arr xs => "[" ++ serializeArr xs ++ "]"
  | .obj fs => lbrace ++ serializeObj fs ++ rbrace

/-- Comma-separated serialization of array elements. -/
def serializeArr : List Json → String
  | [] => ""
  | [x] => serializeJson x
  | x :: y :: rest => serializeJson x ++ "," ++ serializeArr (y :: rest)

/-- Comma-separated serialization of object fields. -/
def serializeObj : List (String × Json) → String
  | [] => ""
  | [(k, v)] => "\"" ++ jsonEscape k ++ "\":" ++ serializeJson v
  | (k, v) :: f :: rest =>
    "\"" ++ jsonEscape k ++ "\":" ++ serializeJson v ++ "," ++ serializeObj (f :: rest)

end

/-- Wire name of the scheme. -/
def schemeString : Scheme → String
  | .exact => "exact"
  | .upto => "upto"

/-- Parse a wire scheme name. -/
def schemeOfString (s : String) : Option Scheme :=
  if s = "exact" then some .exact
  else if s = "upto" then some .upto
  else none

/-- Modelled from the spec (§4.2, §6): the canonical JSON document of a
`PaymentRequirements` value, with the fixed field order and key casing. -/
def requirementsJson (req : PaymentRequirements) : Json :=
  .obj [("scheme", .str (schemeString req.scheme)),
        ("network", .str req.network),
        ("maxAmountRequired", .str (natToStr req.maxAmountRequired)),
        ("resource", .str req.resource),
        ("description", match req.description with | some d => .str d | none => .null),
        ("mimeType", .str req.mimeType),
        ("payTo", .str req.payTo),
        ("maxTimeoutSeconds", .num req.maxTimeoutSeconds),
        ("asset", .str req.asset),
        ("extra", .str req.extra)]

/-- Reading back the optional description field. -/
def descOfJson : Json → Option (Option String)
  | .null => some none
  | .str s => some (some s)
  | _ => none

/-- Modelled from the spec: deserialization of the canonical
`PaymentRequirements` JSON document (fixed field order, so the parser
matches the canonical shape and parses the scalar fields back). -/
def deserializeRequirements : Json → Option PaymentRequirements
  | .obj [(k1, .str sch), (k2, .str nw), (k3, .str amt), (k4, .str res), (k5, d),
          (k6, .str mt), (k7, .str pt), (k8, .num ts), (k9, .str ast), (k10, .str ex)] =>
    if k1 = "scheme" ∧ k2 = "network" ∧ k3 = "maxAmountRequired" ∧ k4 = "resource" ∧
        k5 = "description" ∧ k6 = "mimeType" ∧ k7 = "payTo" ∧ k8 = "maxTimeoutSeconds" ∧
        k9 = "asset" ∧ k10 = "extra" then
      match schemeOfString sch, strToNat amt, descOfJson d with
      | some s, some n, some dd => some ⟨s, nw, n, res, dd, mt, pt, ts, ast, ex⟩
      | _, _, _ => none
    else none
  | _ => none

/-! ### Response rendering -/

/-- HTML escaping of one character: the five markup-significant characters
become entities; all other characters pass through unchanged. -/
def escHtmlChar (c : Char) : List Char :=
  if c = '<' then ['&', 'l', 't', ';']
  else if c = '>' then ['&', 'g', 't', ';']
  else if c = '&' then ['&', 'a', 'm', 'p', ';']
  else if c = '"' then ['&', 'q', 'u', 'o', 't', ';']
  else if c = '\'' then ['&', '#', '3', '9', ';']
  else [c]

/-- HTML escaping of a character list. -/
def htmlEscapeList : List Char → List Char
  | [] => []
  | c :: cs => escHtmlChar c ++ htmlEscapeList cs

/-- Modelled from the spec (§4.5): escaping applied to every
caller-controlled string interpolated into the HTML paywall. -/
def htmlEscape (s : String) : String := String.mk (htmlEscapeList s.data)

/-- Human-readable amount line shown on the paywall. -/
def displayAmount (req : PaymentRequirements) : String :=
  natToStr req.maxAmountRequired ++ " base units of " ++ req.asset

/-- Modelled from the spec (§4.5 ResponseRenderer `renderHtml`): a pure
function rendering the paywall document; the human-readable amount, the
recipient, the description and the error text are embedded only through
`htmlEscape`. -/
def renderHtml (req : PaymentRequirements) (errorMsg : Option String) : String :=
  "<html><head><title>Payment Required</title></head><body>" ++
  "<h1>402 Payment Required</h1>" ++
  "<p>Amount: " ++ htmlEscape (displayAmount req) ++ "</p>" ++
  "<p>Recipient: " ++ htmlEscape req.payTo ++ "</p>" ++
  (match req.description with
   | some d => "<p>Description: " ++ htmlEscape d ++ "</p>"
   | none => "") ++
  (match errorMsg with
   | some e => "<p>Error: " ++ htmlEscape e ++ "</p>"
   | none => "") ++
  "</body></html>"

/-- Modelled from the spec (§4.5, §6): the 402 challenge JSON document
with fixed schema x402Version, optional error, accepts. -/
def challengeJson (req : PaymentRequirements) (errorMsg : Option String) : Json :=
  .obj ([("x402Version", .num 1)] ++
        (match errorMsg with
         | some e => [("error", .str e)]
         | none => []) ++
        [("accepts", .arr [requirementsJson req])])

/-- Modelled from the spec (§4.5 ResponseRenderer `renderJson`): a pure
function rendering the JSON challenge body. -/
def renderJson (req : PaymentRequirements) (errorMsg : Option String) : String :=
  serializeJson (challengeJson req errorMsg)

/-! ### Client classification -/

/-- Whether `needle` starts `hay`. -/
def startsWithL : List Char → List Char → Bool
  | [], _ => true
  | _ :: _, [] => false
  | a :: as_, b :: bs => a == b && startsWithL as_ bs

/-- Whether `needle` occurs contiguously anywhere in `hay`. -/
def hasSubstr (needle : List Char) : List Char → Bool
  | [] => needle.isEmpty
  | c :: rest => startsWithL needle (c :: rest) || hasSubstr needle rest

/-- Whether `tok` occurs in the header string `hay`. -/
def containsToken (hay tok : String) : Bool := hasSubstr tok.data hay.data

/-- Modelled from the spec (§4.6): the known browser token patterns looked
for in the User-Agent header. -/
def browserTokens : List String := ["Mozilla", "Chrome", "Safari", "Firefox", "Edge"]

/-- Browser/API classification of an inbound request. -/
inductive Classification where
  | browser
  | api
deriving DecidableEq

/-- Modelled from the spec (§4.6 ClientClassifier): pure and total over all
header inputs, absent headers included; `browser` iff the User-Agent matches
a known browser token and the Accept header contains the HTML media type,
otherwise `api`. -/
def classify (userAgent accept : Option String) : Classification :=
  match userAgent, accept with
  | some ua, some acc =>
    if browserTokens.any (fun tok => containsToken ua tok) && containsToken acc "text/html"
    then .browser else .api
  | _, _ => .api

/-! ### C boundary shim -/

/-- Result of one boundary call: the numeric return code of the header
(0 success, 1 invalid input, 2 verification failure, 3 facilitator error,
4 buffer too small, 5 internal error), the bytes written into the output
buffer, and the length reported back through result_len. -/
structure FfiOut where
  code : Nat
  result : Option String
  result_len : Nat
deriving DecidableEq

/-- Write a serialized core result into a caller buffer of capacity `cap`:
when the string fits it is written out with its actual length reported,
otherwise the distinct buffer-too-small code 4 is reported together with
the required length. -/
def writeOut (okCode : Nat) (s : String) (cap : Nat) : FfiOut :=
  if s.length ≤ cap then ⟨okCode, some s, s.length⟩ else ⟨4, none, s.length⟩

/-- Wire name of an invalid reason. -/
def reasonCode : InvalidReason → String
  | .scheme_mismatch => "scheme_mismatch"
  | .network_mismatch => "network_mismatch"
  | .insufficient_amount => "insufficient_amount"
  | .recipient_mismatch => "recipient_mismatch"
  | .not_yet_valid => "not_yet_valid"
  | .expired => "expired"
  | .nonce_reused => "nonce_reused"
  | .bad_signature => "bad_signature"
  | .facilitator_rejected (some remote) => remote
  | .facilitator_rejected none => "facilitator_rejected"

/-- The JSON document of a `VerificationResult`: `isValid` always,
`invalidReason` present iff invalid, `payer` present iff valid. -/
def resultJson (r : VerificationResult) : Json :=
  .obj ([("isValid", .bool r.isValid)] ++
        (match r.invalidReason with
         | some reason => [("invalidReason", .str (reasonCode reason))]
         | none => []) ++
        (match r.payer with
         | some p => [("payer", .str p)]
         | none => []))

/-- Serialized form of a `VerificationResult` written into the boundary
buffer. -/
def serializeResult (r : VerificationResult) : String :=
  serializeJson (resultJson r)

/-- Modelled from the spec and the header contract of `x402_verify_payment`:
the decoded payment (`none` for an undecodable payload), the parsed
requirements (`none` for malformed requirements JSON), the facilitator
oracle standing for the facilitator URL argument, the replay cache, the
verification instant and the output-buffer capacity; returns the boundary
output, whether a facilitator round trip happened, and the cache after the
call. -/
def x402_verify_payment (payment : Option PaymentPayload)
    (requirements : Option PaymentRequirements) (facilitator : Option FacOracle)
    (cache : Option NonceCache) (now : Nat) (cap : Nat) :
    FfiOut × Bool × Option NonceCache :=
  match payment, requirements with
  | none, _ => (⟨1, none, 0⟩, false, cache)
  | some _, none => (⟨1, none, 0⟩, false, cache)
  | some p, some req =>
    match (verify p req facilitator cache now).outcome with
    | .facilitatorError =>
      (⟨3, none, 0⟩, (verify p req facilitator cache now).facCalled,
        (verify p req facilitator cache now).cache)
    | .ok r =>
      (writeOut (cond r.isValid 0 2) (serializeResult r) cap,
        (verify p req facilitator cache now).facCalled,
        (verify p req facilitator cache now).cache)

/-- Modelled from the spec and the header contract of
`x402_create_requirements`: build the requirements from the caller fields
and write their canonical JSON into the buffer; validation failure is
invalid input (code 1). -/
def x402_create_requirements (amount payTo : String)
    (network resource description : Option String) (testnet : Bool) (cap : Nat) : FfiOut :=
  match buildRequirements amount payTo network resource description testnet with
  | none => ⟨1, none, 0⟩
  | some req => writeOut 0 (serializeJson (requirementsJson req)) cap

/-- Modelled from the spec and the header contract of
`x402_generate_paywall_html`: render the paywall for the given requirements
(code 1 for malformed requirements JSON) into the buffer. -/
def x402_generate_paywall_html (requirements : Option PaymentRequirements)
    (errorMsg : Option String) (cap : Nat) : FfiOut :=
  match requirements with
  | none => ⟨1, none, 0⟩
  | some req => writeOut 0 (renderHtml req errorMsg) cap

/-- Modelled from the spec and the header contract of
`x402_generate_json_response`: render the 402 challenge JSON for the given
requirements (code 1 for malformed requirements JSON) into the buffer. -/
def x402_generate_json_response (requirements : Option PaymentRequirements)
    (errorMsg : Option String) (cap : Nat) : FfiOut :=
  match requirements with
  | none => ⟨1, none, 0⟩
  | some req => writeOut 0 (renderJson req errorMsg) cap

/-- Modelled from the spec and the header contract of
`x402_is_browser_request`: 1 for a browser request, 0 for an API request,
NULL headers modelled as `none`. -/
def x402_is_browser_request (user_agent accept : Option String) : Nat :=
  match classify user_agent accept with
  | .browser => 1
  | .api => 0

/-! ### Helper lemmas: decimal digits -/

theorem charVal_digitChar (d : Nat) (hd : d < 10) : charVal (digitChar d) = d := by
  interval_cases d <;> rfl

theorem isDigit_digitChar (d : Nat) (hd : d < 10) : (digitChar d).isDigit = true := by
  interval_cases d <;> rfl

theorem toDigitsAux_foldl (fuel : Nat) :
    ∀ n a, n < fuel →
      List.foldl (fun a c => 10 * a + charVal c) a (toDigitsAux fuel n) =
        a * 10 ^ (toDigitsAux fuel n).length + n := by
  induction fuel with
  | zero => intro n a h; omega
  | succ fuel ih =>
    intro n a h
    by_cases hn : n = 0
    · simp [toDigitsAux, hn]
    · have hpos : 0 < n := Nat.pos_of_ne_zero hn
      have hdiv : n / 10 < n := Nat.div_lt_self hpos (by norm_num)
      have hfuel : n / 10 < fuel := by omega
      have hmod : n % 10 < 10 := Nat.mod_lt _ (by norm_num)
      rw [toDigitsAux, if_neg hn, List.foldl_append, ih (n / 10) a hfuel,
        List.length_append]
      simp only [List.foldl_cons, List.foldl_nil, List.length_cons, List.length_nil,
        charVal_digitChar _ hmod]
      have hsplit : 10 * (n / 10) + n % 10 = n := Nat.div_add_mod n 10
      have hpow : 10 ^ ((toDigitsAux fuel (n / 10)).length + (0 + 1)) =
          10 ^ (toDigitsAux fuel (n / 10)).length * 10 := by
        rw [Nat.zero_add, pow_succ]
      rw [hpow]
      ring_nf
      omega

theorem toDigitsAux_ne_nil (fuel n : Nat) (hpos : 0 < n) (h : n < fuel) :
    toDigitsAux fuel n ≠ [] := by
  cases fuel with
  | zero => omega
  | succ fuel =>
    rw [toDigitsAux, if_neg (Nat.pos_iff_ne_zero.mp hpos)]
    simp

theorem toDigitsAux_all_digits (fuel : Nat) :
    ∀ n, (toDigitsAux fuel n).all Char.isDigit = true := by
  induction fuel with
  | zero => intro n; rfl
  | succ fuel ih =>
    intro n
    by_cases hn : n = 0
    · simp [toDigitsAux, hn]
    · have hmod : n % 10 < 10 := Nat.mod_lt _ (by norm_num)
      rw [toDigitsAux, if_neg hn]
      simp only [List.all_append, ih (n / 10), List.all_cons, List.all_nil,
        isDigit_digitChar _ hmod, Bool.and_self]

theorem strToNat_natToStr (n : Nat) : strToNat (natToStr n) = some n := by
  by_cases hn : n = 0
  · subst hn; rfl
  · have hpos : 0 < n := Nat.pos_of_ne_zero hn
    have hlt : n < n + 1 := Nat.lt_succ_self n
    have hdata : (natToStr n).data = toDigitsAux (n + 1) n := by
      rw [natToStr, if_neg hn]
    rw [strToNat, hdata, parseDigits,
      if_pos ⟨toDigitsAux_ne_nil (n + 1) n hpos hlt, toDigitsAux_all_digits (n + 1) n⟩,
      digitsVal, toDigitsAux_foldl (n + 1) n 0 hlt]
    simp

theorem schemeOfString_schemeString (s : Scheme) :
    schemeOfString (schemeString s) = some s := by
  cases s <;> rfl

/-- The canonical requirements document deserializes back to the very value
it was serialized from. -/
theorem requirements_roundtrip (req : PaymentRequirements) :
    deserializeRequirements (requirementsJson req) = some req := by
  obtain ⟨s, nw, amt, res, d, mt, pt, ts, ast, ex⟩ := req
  cases d <;>
    simp [requirementsJson, deserializeRequirements, schemeOfString_schemeString,
      strToNat_natToStr, descOfJson]

/-! ### Helper lemmas: the ordered local checks -/

theorem checkLocal_eq_none_iff (p : PaymentPayload) (req : PaymentRequirements)
    (cache : Option NonceCache) (now : Nat) :
    checkLocal p req cache now = none ↔
      p.scheme = req.scheme ∧ p.network = req.network ∧
      amountOk p.scheme p.authorization.value req.maxAmountRequired = true ∧
      p.authorization.to_ = req.payTo ∧ p.authorization.validAfter ≤ now ∧
      now ≤ p.authorization.validBefore ∧ nonceSeen p cache = false := by
  unfold checkLocal
  split_ifs with h1 h2 h3 h4 h5 h6 h7 <;> simp_all

theorem verify_of_checkLocal_some (p : PaymentPayload) (req : PaymentRequirements)
    (facilitator : Option FacOracle) (cache : Option NonceCache) (now : Nat)
    (reason : InvalidReason) (h : checkLocal p req cache now = some reason) :
    verify p req facilitator cache now = ⟨.ok (invalidResult reason), false, cache⟩ := by
  simp [verify, h]

theorem verify_shape (p : PaymentPayload) (req : PaymentRequirements)
    (facilitator : Option FacOracle) (cache : Option NonceCache) (now : Nat)
    (r : VerificationResult)
    (h : (verify p req facilitator cache now).outcome = .ok r) :
    r = validResult p.authorization.from_ ∨ ∃ reason, r = invalidResult reason := by
  unfold verify at h
  rcases hc : checkLocal p req cache now with _ | reason
  · rw [hc] at h
    rcases facilitator with _ | o
    · by_cases hs : p.signature = signingDigest p.authorization req.extra
      · simp [hs] at h; exact Or.inl h.symm
      · simp [hs] at h; exact Or.inr ⟨.bad_signature, h.symm⟩
    · rcases hv : facilitatorVerify o with ⟨b, rsn⟩ | _
      · cases b
        · simp [hv] at h; exact Or.inr ⟨.facilitator_rejected rsn, h.symm⟩
        · simp [hv] at h; exact Or.inl h.symm
      · simp [hv] at h
  · rw [hc] at h
    simp at h
    exact Or.inr ⟨reason, h.symm⟩

theorem verify_valid_checkLocal_none (p : PaymentPayload) (req : PaymentRequirements)
    (facilitator : Option FacOracle) (cache : Option NonceCache) (now : Nat)
    (r : VerificationResult)
    (h : (verify p req facilitator cache now).outcome = .ok r)
    (hv : r.isValid = true) : checkLocal p req cache now = none := by
  rcases hc : checkLocal p req cache now with _ | reason
  · rfl
  · rw [verify_of_checkLocal_some p req facilitator cache now reason hc] at h
    simp at h
    rw [← h] at hv
    simp [invalidResult] at hv

theorem verify_local_valid (p : PaymentPayload) (req : PaymentRequirements)
    (cache : Option NonceCache) (now : Nat)
    (hc : checkLocal p req cache now = none)
    (hs : p.signature = signingDigest p.authorization req.extra) :
    verify p req none cache now =
      ⟨.ok (validResult p.authorization.from_), false, recordNonce p cache⟩ := by
  simp [verify, hc, hs]

theorem verify_local_badsig (p : PaymentPayload) (req : PaymentRequirements)
    (cache : Option NonceCache) (now : Nat)
    (hc : checkLocal p req cache now = none)
    (hs : p.signature ≠ signingDigest p.authorization req.extra) :
    verify p req none cache now =
      ⟨.ok (invalidResult .bad_signature), false, recordNonce p cache⟩ := by
  simp [verify, hc, hs]

theorem verify_fac_error (p : PaymentPayload) (req : PaymentRequirements)
    (o : FacOracle) (cache : Option NonceCache) (now : Nat)
    (hc : checkLocal p req cache now = none)
    (hf : facilitatorVerify o = .facError) :
    verify p req (some o) cache now = ⟨.facilitatorError, true, recordNonce p cache⟩ := by
  simp [verify, hc, hf]

theorem verify_none_facCalled (p : PaymentPayload) (req : PaymentRequirements)
    (cache : Option NonceCache) (now : Nat) :
    (verify p req none cache now).facCalled = false := by
  rcases hc : checkLocal p req cache now with _ | reason
  · by_cases hs : p.signature = signingDigest p.authorization req.extra <;>
      simp [verify, hc, hs]
  · simp [verify, hc]

theorem facilitatorVerify_transient (o : FacOracle)
    (h1 : o.attempt1.transient = true) (h2 : o.attempt2.transient = true) :
    facilitatorVerify o = .facError := by
  obtain ⟨a1, a2⟩ := o
  cases a1 <;> cases a2 <;> simp_all [FacAttempt.transient, facilitatorVerify]

/-! ### Helper lemmas: escaping -/

/-- A character that cannot open or close HTML tags, attributes or quoted
attribute values. -/
def htmlSafeChar (c : Char) : Bool :=
  !(c == '<') && !(c == '>') && !(c == '"') && !(c == '\'')

/-- A character that cannot terminate a JSON string literal and is not a
raw control character. -/
def jsonSafeChar (c : Char) : Bool :=
  !(c == '"') && decide (32 ≤ c.toNat)

theorem hexDigitChar_safe (d : Nat) (hd : d < 16) :
    htmlSafeChar (hexDigitChar d) = true ∧ jsonSafeChar (hexDigitChar d) = true := by
  interval_cases d <;> exact ⟨rfl, rfl⟩

theorem escHtmlChar_safe (c : Char) : (escHtmlChar c).all htmlSafeChar = true := by
  unfold escHtmlChar
  split_ifs with h1 h2 h3 h4 h5
  · rfl
  · rfl
  · rfl
  · rfl
  · rfl
  · simp [htmlSafeChar, h1, h2, h3, h4, h5]

theorem htmlEscapeList_safe (cs : List Char) :
    (htmlEscapeList cs).all htmlSafeChar = true := by
  induction cs with
  | nil => rfl
  | cons c cs ih =>
    rw [htmlEscapeList]
    simp [List.all_append, escHtmlChar_safe c, ih]

theorem escJsonChar_safe (c : Char) : (escJsonChar c).all jsonSafeChar = true := by
  unfold escJsonChar
  split_ifs with h
  · have hlt : c.toNat < 256 := by
      rcases Bool.or_eq_true_iff.mp h with h' | hctl
      · rcases Bool.or_eq_true_iff.mp h' with hq | hb
        · rw [show c = '"' from by simpa using hq]; decide
        · rw [show c = '\\' from by simpa using hb]; decide
      · have : c.toNat < 32 := by simpa using hctl
        omega
    have hhi : c.toNat / 16 < 16 := by omega
    have hlo : c.toNat % 16 < 16 := Nat.mod_lt _ (by norm_num)
    simp only [List.all_cons, List.all_nil, (hexDigitChar_safe _ hhi).2,
      (hexDigitChar_safe _ hlo).2, Bool.and_true]
    decide
  · have hq : c ≠ '"' := fun hc => h (by simp [hc])
    have hge : 32 ≤ c.toNat := by
      by_contra hlt2
      exact h (by simp; omega)
    simp [jsonSafeChar, hq, hge]

theorem jsonEscapeList_safe (cs : List Char) :
    (jsonEscapeList cs).all jsonSafeChar = true := by
  induction cs with
  | nil => rfl
  | cons c cs ih =>
    rw [jsonEscapeList]
    simp [List.all_append, escJsonChar_safe c, ih]

/-- Occurrences of a character in a string. -/
def countIn (c : Char) (s : String) : Nat := s.data.count c

theorem countIn_append (c : Char) (s t : String) :
    countIn c (s ++ t) = countIn c s + countIn c t := by
  simp [countIn, String.data_append, List.count_append]

theorem countIn_htmlEscape (c : Char) (s : String) (hc : htmlSafeChar c = false) :
    countIn c (htmlEscape s) = 0 := by
  refine List.count_eq_zero.mpr fun hmem => ?_
  have hsafe := List.all_eq_true.mp (htmlEscapeList_safe s.data) c hmem
  rw [hc] at hsafe
  exact Bool.false_ne_true hsafe

theorem countIn_jsonEscape (c : Char) (s : String) (hc : jsonSafeChar c = false) :
    countIn c (jsonEscape s) = 0 := by
  refine List.count_eq_zero.mpr fun hmem => ?_
  have hsafe := List.all_eq_true.mp (jsonEscapeList_safe s.data) c hmem
  rw [hc] at hsafe
  exact Bool.false_ne_true hsafe

/-! ### Concrete sample values -/

/-- Requirements for the concrete examples. -/
def sampleReq : PaymentRequirements :=
  { scheme := .exact
    network := "base"
    maxAmountRequired := 100
    resource := "/"
    description := some "Premium article"
    mimeType := "application/json"
    payTo := "0xaabb"
    maxTimeoutSeconds := 60
    asset := "USDC-base"
    extra := "name=USD Coin;version=2" }

/-- Authorization for the concrete examples. -/
def sampleAuth : Authorization :=
  { from_ := "0xf00d"
    to_ := "0xaabb"
    value := 100
    validAfter := 10
    validBefore := 1000
    nonce := "n-1" }

/-- A payload that satisfies every check of `sampleReq` at instant 50. -/
def samplePayload : PaymentPayload :=
  { scheme := .exact
    network := "base"
    authorization := sampleAuth
    signature := signingDigest sampleAuth "name=USD Coin;version=2" }

/-- The same payload declared under the other scheme. -/
def sampleUptoPayload : PaymentPayload :=
  { samplePayload with scheme := .upto }

/-- Authorization paying strictly less than `sampleReq` demands. -/
def sampleLowAuth : Authorization :=
  { sampleAuth with value := 50 }

/-- Exact-scheme payload whose value is strictly below the requirement. -/
def sampleLowExactPayload : PaymentPayload :=
  { samplePayload with authorization := sampleLowAuth }

/-- The sample requirements under the capped scheme. -/
def sampleUptoReq : PaymentRequirements :=
  { sampleReq with scheme := .upto }

/-- Upto-scheme payload paying strictly less than the cap, with a valid
signature. -/
def sampleLowUptoPayload : PaymentPayload :=
  { scheme := .upto
    network := "base"
    authorization := sampleLowAuth
    signature := signingDigest sampleLowAuth "name=USD Coin;version=2" }

/-! ### Claims -/

/-- C1: verifyPayment evaluates its checks in the fixed order —
scheme/network cross-check, amount, recipient, time window, replay, then
signature/facilitator authorization — short-circuiting at the first failing
check with its deterministic, most-specific invalid reason; a scheme or
network mismatch does no further work (no facilitator round trip, no cache
mutation), and the InvalidInput boundary code 1 is never produced after a
facilitator round trip has happened. -/
theorem c1_ordered_checks_short_circuit (p : PaymentPayload) (req : PaymentRequirements)
    (facilitator : Option FacOracle) (cache : Option NonceCache) (now : Nat)
    (payment : Option PaymentPayload) (requirements : Option PaymentRequirements)
    (cap : Nat) :
    (p.scheme ≠ req.scheme →
      verify p req facilitator cache now =
        ⟨.ok (invalidResult .scheme_mismatch), false, cache⟩) ∧
    (p.scheme = req.scheme → p.network ≠ req.network →
      verify p req facilitator cache now =
        ⟨.ok (invalidResult .network_mismatch), false, cache⟩) ∧
    (p.scheme = req.scheme → p.network = req.network →
      amountOk p.scheme p.authorization.value req.maxAmountRequired = false →
      verify p req facilitator cache now =
        ⟨.ok (invalidResult .insufficient_amount), false, cache⟩) ∧
    (p.scheme = req.scheme → p.network = req.network →
      amountOk p.scheme p.authorization.value req.maxAmountRequired = true →
      p.authorization.to_ ≠ req.payTo →
      verify p req facilitator cache now =
        ⟨.ok (invalidResult .recipient_mismatch), false, cache⟩) ∧
    (p.scheme = req.scheme → p.network = req.network →
      amountOk p.scheme p.authorization.value req.maxAmountRequired = true →
      p.authorization.to_ = req.payTo → now < p.authorization.validAfter →
      verify p req facilitator cache now =
        ⟨.ok (invalidResult .not_yet_valid), false, cache⟩) ∧
    (p.scheme = req.scheme → p.network = req.network →
      amountOk p.scheme p.authorization.value req.maxAmountRequired = true →
      p.authorization.to_ = req.payTo → p.authorization.validAfter ≤ now →
      p.authorization.validBefore < now →
      verify p req facilitator cache now =
        ⟨.ok (invalidResult .expired), false, cache⟩) ∧
    (p.scheme = req.scheme → p.network = req.network →
      amountOk p.scheme p.authorization.value req.maxAmountRequired = true →
      p.authorization.to_ = req.payTo → p.authorization.validAfter ≤ now →
      now ≤ p.authorization.validBefore → nonceSeen p cache = true →
      verify p req facilitator cache now =
        ⟨.ok (invalidResult .nonce_reused), false, cache⟩) ∧
    ((x402_verify_payment payment requirements facilitator cache now cap).1.code = 1 →
      (x402_verify_payment payment requirements facilitator cache now cap).2.1 = false) := by
  refine ⟨?_, ?_, ?_, ?_, ?_, ?_, ?_, ?_⟩
  · intro h1
    exact verify_of_checkLocal_some _ _ _ _ _ _ (by simp [checkLocal, h1])
  · intro h1 h2
    exact verify_of_checkLocal_some _ _ _ _ _ _ (by simp [checkLocal, h1, h2])
  · intro h1 h2 h3
    exact verify_of_checkLocal_some _ _ _ _ _ _ (by simp [checkLocal, h1, h2, h1 ▸ h3])
  · intro h1 h2 h3 h4
    exact verify_of_checkLocal_some _ _ _ _ _ _ (by simp [checkLocal, h1, h2, h1 ▸ h3, h4])
  · intro h1 h2 h3 h4 h5
    exact verify_of_checkLocal_some _ _ _ _ _ _
      (by simp [checkLocal, h1, h2, h1 ▸ h3, h4, h5])
  · intro h1 h2 h3 h4 h5 h6
    exact verify_of_checkLocal_some _ _ _ _ _ _
      (by simp [checkLocal, h1, h2, h1 ▸ h3, h4, Nat.not_lt.mpr h5, h6])
  · intro h1 h2 h3 h4 h5 h6 h7
    exact verify_of_checkLocal_some _ _ _ _ _ _
      (by simp [checkLocal, h1, h2, h1 ▸ h3, h4, Nat.not_lt.mpr h5, Nat.not_lt.mpr h6, h7])
  · rcases payment with _ | p'
    · intro _; rfl
    rcases requirements with _ | req'
    · intro _; rfl
    intro hcode
    exfalso
    rcases hto : (verify p' req' facilitator cache now).outcome with r | _
    · rw [x402_verify_payment] at hcode
      simp only [hto] at hcode
      rw [writeOut] at hcode
      split_ifs at hcode
      · cases hr : r.isValid <;> rw [hr] at hcode <;> simp at hcode
      · simp at hcode
    · rw [x402_verify_payment] at hcode
      simp only [hto] at hcode
      simp at hcode

/-- Witness for C1: a concrete scheme-mismatched payload is rejected with
reason scheme_mismatch, with no facilitator round trip and no cache
mutation. -/
theorem c1_witness :
    sampleUptoPayload.scheme ≠ sampleReq.scheme ∧
    verify sampleUptoPayload sampleReq (some ⟨.timeout, .timeout⟩) (some []) 50 =
      ⟨.ok (invalidResult .scheme_mismatch), false, some []⟩ :=
  ⟨by decide,
    (c1_ordered_checks_short_circuit sampleUptoPayload sampleReq
      (some ⟨.timeout, .timeout⟩) (some []) 50 none none 0).1 (by decide)⟩

/-- C2: when payload and requirements agree on scheme and network, the
amount check accepts under `exact` only for value equal to
maxAmountRequired and under `upto` only for value at most it; any violation
is rejected with reason insufficient_amount, a strictly smaller value is
rejected under `exact`, and under `upto` it is accepted when every other
check passes. -/
theorem c2_amount_check (p : PaymentPayload) (req : PaymentRequirements)
    (facilitator : Option FacOracle) (cache : Option NonceCache) (now : Nat)
    (h1 : p.scheme = req.scheme) (h2 : p.network = req.network) :
    (p.scheme = .exact → p.authorization.value ≠ req.maxAmountRequired →
      verify p req facilitator cache now =
        ⟨.ok (invalidResult .insufficient_amount), false, cache⟩) ∧
    (p.scheme = .upto → req.maxAmountRequired < p.authorization.value →
      verify p req facilitator cache now =
        ⟨.ok (invalidResult .insufficient_amount), false, cache⟩) ∧
    (∀ r, (verify p req facilitator cache now).outcome = .ok r → r.isValid = true →
      (p.scheme = .exact → p.authorization.value = req.maxAmountRequired) ∧
      (p.scheme = .upto → p.authorization.value ≤ req.maxAmountRequired)) ∧
    (p.scheme = .exact → p.authorization.value < req.maxAmountRequired →
      verify p req facilitator cache now =
        ⟨.ok (invalidResult .insufficient_amount), false, cache⟩) ∧
    (p.scheme = .upto → p.authorization.value ≤ req.maxAmountRequired →
      p.authorization.to_ = req.payTo → p.authorization.validAfter ≤ now →
      now ≤ p.authorization.validBefore → nonceSeen p cache = false →
      p.signature = signingDigest p.authorization req.extra → facilitator = none →
      verify p req facilitator cache now =
        ⟨.ok (validResult p.authorization.from_), false, recordNonce p cache⟩) := by
  have amount_exact : p.scheme = .exact → p.authorization.value ≠ req.maxAmountRequired →
      amountOk p.scheme p.authorization.value req.maxAmountRequired = false := by
    intro hx hv
    rw [hx]
    simp [amountOk, hv]
  refine ⟨?_, ?_, ?_, ?_, ?_⟩
  · intro hx hv
    exact verify_of_checkLocal_some _ _ _ _ _ _
      (by simp [checkLocal, h1, h2, h1 ▸ amount_exact hx hv])
  · intro hx hv
    have ha : amountOk p.scheme p.authorization.value req.maxAmountRequired = false := by
      rw [hx]
      simp [amountOk]
      omega
    exact verify_of_checkLocal_some _ _ _ _ _ _ (by simp [checkLocal, h1, h2, h1 ▸ ha])
  · intro r hok hvalid
    have hc := verify_valid_checkLocal_none _ _ _ _ _ _ hok hvalid
    obtain ⟨_, _, hamt, _⟩ := (checkLocal_eq_none_iff _ _ _ _).mp hc
    constructor
    · intro hx
      rw [hx] at hamt
      simpa [amountOk] using hamt
    · intro hx
      rw [hx] at hamt
      simpa [amountOk] using hamt
  · intro hx hv
    exact verify_of_checkLocal_some _ _ _ _ _ _
      (by simp [checkLocal, h1, h2, h1 ▸ amount_exact hx (Nat.ne_of_lt hv)])
  · intro hx hv hto ha hb hnonce hsig hfac
    subst hfac
    refine verify_local_valid _ _ _ _ ?_ hsig
    refine (checkLocal_eq_none_iff _ _ _ _).mpr ⟨h1, h2, ?_, hto, ha, hb, hnonce⟩
    rw [hx]
    simpa [amountOk]

/-- Witness for C2: a value of 50 against a requirement of 100 is rejected
with insufficient_amount under `exact`, and accepted under `upto` when all
other checks pass. -/
theorem c2_witness :
    verify sampleLowExactPayload sampleReq none none 50 =
      ⟨.ok (invalidResult .insufficient_amount), false, none⟩ ∧
    verify sampleLowUptoPayload sampleUptoReq none none 50 =
      ⟨.ok (validResult "0xf00d"), false, none⟩ :=
  ⟨(c2_amount_check sampleLowExactPayload sampleReq none none 50
      (by decide) (by decide)).2.2.2.1 (by decide) (by decide),
    (c2_amount_check sampleLowUptoPayload sampleUptoReq none none 50
      (by decide) (by decide)).2.2.2.2 (by decide) (by decide) (by decide) (by decide)
      (by decide) (by decide) (by decide) rfl⟩

/-- C3: once verification is delegated to the facilitator, a persistent
timeout or connection failure makes verifyPayment return the distinguished
facilitator error (boundary code 3), never a VerificationFailed/isValid =
false result (code 2): no result document is produced at all, so a
facilitator error never implies the payment was invalid. -/
theorem c3_facilitator_failure (p : PaymentPayload) (req : PaymentRequirements)
    (o : FacOracle) (cache : Option NonceCache) (now cap : Nat)
    (hc : checkLocal p req cache now = none)
    (h1 : o.attempt1.transient = true) (h2 : o.attempt2.transient = true) :
    verify p req (some o) cache now = ⟨.facilitatorError, true, recordNonce p cache⟩ ∧
    (x402_verify_payment (some p) (some req) (some o) cache now cap).1.code = 3 ∧
    (x402_verify_payment (some p) (some req) (some o) cache now cap).1.code ≠ 2 ∧
    (x402_verify_payment (some p) (some req) (some o) cache now cap).1.result = none ∧
    (∀ r, (verify p req (some o) cache now).outcome ≠ .ok r) := by
  have hv := verify_fac_error p req o cache now hc (facilitatorVerify_transient o h1 h2)
  have hto : (verify p req (some o) cache now).outcome = .facilitatorError := by rw [hv]
  refine ⟨hv, ?_, ?_, ?_, ?_⟩
  · rw [x402_verify_payment]
    simp [hto]
  · rw [x402_verify_payment]
    simp [hto]
  · rw [x402_verify_payment]
    simp [hto]
  · intro r hr
    rw [hto] at hr
    exact EngineOutcome.noConfusion hr

/-- Witness for C3: a concrete in-window payment whose facilitator times out
and then suffers a connection failure yields boundary code 3. -/
theorem c3_witness :
    (x402_verify_payment (some samplePayload) (some sampleReq)
      (some ⟨.timeout, .connectionFailure⟩) (some []) 50 1024).1.code = 3 :=
  (c3_facilitator_failure samplePayload sampleReq ⟨.timeout, .connectionFailure⟩
    (some []) 50 1024 (by decide) (by decide) (by decide)).2.1

/-- C4: with no facilitator URL, verifyPayment never contacts a
facilitator and settles authorization by local signature verification
against the digest recomputed from the canonical authorization fields and
the domain parameters in requirements.extra: a mismatch is rejected with
reason bad_signature and a match is accepted for payer authorization.from. -/
theorem c4_local_signature_verification (p : PaymentPayload)
    (req : PaymentRequirements) (cache : Option NonceCache) (now : Nat)
    (hc : checkLocal p req cache now = none) :
    (∀ (p2 : PaymentPayload) (req2 : PaymentRequirements)
        (cache2 : Option NonceCache) (now2 : Nat),
      (verify p2 req2 none cache2 now2).facCalled = false) ∧
    (p.signature ≠ signingDigest p.authorization req.extra →
      verify p req none cache now =
        ⟨.ok (invalidResult .bad_signature), false, recordNonce p cache⟩) ∧
    (p.signature = signingDigest p.authorization req.extra →
      verify p req none cache now =
        ⟨.ok (validResult p.authorization.from_), false, recordNonce p cache⟩) := by
  exact ⟨fun p2 req2 cache2 now2 => verify_none_facCalled p2 req2 cache2 now2,
    fun hs => verify_local_badsig p req cache now hc hs,
    fun hs => verify_local_valid p req cache now hc hs⟩

/-- Witness for C4: a concrete payload with a corrupted signature is
rejected locally with bad_signature when no facilitator URL is given. -/
theorem c4_witness :
    verify { samplePayload with signature := "bogus" } sampleReq none (some []) 50 =
      ⟨.ok (invalidResult .bad_signature), false, some [("base", "n-1")]⟩ :=
  (c4_local_signature_verification { samplePayload with signature := "bogus" }
    sampleReq (some []) 50 (by decide)).2.1 (by decide)

/-- C5: a payload with scheme exact, matching network, recipient and
amount, a valid signature and the verification instant inside its time
window verifies as valid with payer equal to authorization.from; and in
every result the engine produces, payer is present exactly when the result
is valid and invalidReason exactly when it is invalid. -/
theorem c5_happy_path_and_result_fields (p : PaymentPayload)
    (req : PaymentRequirements) (cache : Option NonceCache) (now : Nat)
    (hs : p.scheme = .exact) (hrs : req.scheme = .exact)
    (hn : p.network = req.network)
    (hto : p.authorization.to_ = req.payTo)
    (hv : p.authorization.value = req.maxAmountRequired)
    (hsig : p.signature = signingDigest p.authorization req.extra)
    (ha : p.authorization.validAfter ≤ now)
    (hb : now ≤ p.authorization.validBefore)
    (hnonce : nonceSeen p cache = false) :
    verify p req none cache now =
      ⟨.ok (validResult p.authorization.from_), false, recordNonce p cache⟩ ∧
    (validResult p.authorization.from_).payer = some p.authorization.from_ ∧
    (validResult p.authorization.from_).isValid = true ∧
    (∀ (p2 : PaymentPayload) (req2 : PaymentRequirements)
        (fac2 : Option FacOracle) (cache2 : Option NonceCache) (now2 : Nat)
        (r : VerificationResult),
      (verify p2 req2 fac2 cache2 now2).outcome = .ok r →
        r.payer.isSome = r.isValid ∧ r.invalidReason.isSome = !r.isValid) := by
  have hsch : p.scheme = req.scheme := by rw [hs, hrs]
  have hc : checkLocal p req cache now = none := by
    refine (checkLocal_eq_none_iff _ _ _ _).mpr ⟨hsch, hn, ?_, hto, ha, hb, hnonce⟩
    rw [hs]
    simpa [amountOk]
  refine ⟨verify_local_valid p req cache now hc hsig, rfl, rfl, ?_⟩
  intro p2 req2 fac2 cache2 now2 r hok
  rcases verify_shape p2 req2 fac2 cache2 now2 r hok with hr | ⟨reason, hr⟩ <;>
    subst hr <;> simp [validResult, invalidResult]

/-- Witness for C5: the concrete in-window sample payload verifies as valid
with payer 0xf00d. -/
theorem c5_witness :
    verify samplePayload sampleReq none (some []) 50 =
      ⟨.ok (validResult "0xf00d"), false, some [("base", "n-1")]⟩ :=
  (c5_happy_path_and_result_fields samplePayload sampleReq (some []) 50
    (by decide) (by decide) (by decide) (by decide) (by decide) (by decide)
    (by decide) (by decide) (by decide)).1

/-- C6: every valid decimal-string amount with at most the asset precision
in fractional digits is converted by buildRequirements to an integer
base-unit amount, and canonically serializing the resulting requirements
and deserializing them again reproduces exactly the same base-unit integer
amount (indeed the whole requirements value). -/
theorem c6_amount_round_trip (a payTo : String)
    (network resource description : Option String) (testnet : Bool) (n : Nat)
    (hamt : parseDecimal a assetPrecision = some n)
    (haddr : isValidAddress payTo = true)
    (hnw : (resolveNetwork network testnet).isSome = true) :
    ∃ req, buildRequirements a payTo network resource description testnet = some req ∧
      req.maxAmountRequired = n ∧
      deserializeRequirements (requirementsJson req) = some req ∧
      (deserializeRequirements (requirementsJson req)).map
        PaymentRequirements.maxAmountRequired = some n := by
  obtain ⟨nw, hnw2⟩ := Option.isSome_iff_exists.mp hnw
  refine ⟨{ scheme := .exact
            network := nw
            maxAmountRequired := n
            resource := resource.getD "/"
            description := description
            mimeType := "application/json"
            payTo := payTo
            maxTimeoutSeconds := 60
            asset := assetId nw
            extra := domainExtra }, ?_, rfl, requirements_roundtrip _, ?_⟩
  · simp [buildRequirements, hamt, haddr, hnw2]
  · rw [requirements_roundtrip]
    rfl

/-- Witness for C6: the amount string 0.0001 with six-decimal asset
precision becomes 100 base units and survives the canonical
serialize/deserialize round trip. -/
theorem c6_witness :
    ∃ req, buildRequirements "0.0001" "0x12345678901234567890123456789012345678ab"
        none none none false = some req ∧
      req.maxAmountRequired = 100 ∧
      deserializeRequirements (requirementsJson req) = some req ∧
      (deserializeRequirements (requirementsJson req)).map
        PaymentRequirements.maxAmountRequired = some 100 :=
  c6_amount_round_trip "0.0001" "0x12345678901234567890123456789012345678ab"
    none none none false 100 (by decide) (by decide) (by decide)

/-- C7: the time-window check demands validAfter ≤ now ≤ validBefore: a
payload (passing the earlier cross-checks, with a well-formed window) whose
validBefore lies before the verification instant is rejected with reason
expired regardless of its signature, and one whose validAfter lies after
the instant is rejected with reason not_yet_valid. -/
theorem c7_time_window (p : PaymentPayload) (req : PaymentRequirements)
    (facilitator : Option FacOracle) (cache : Option NonceCache) (now : Nat)
    (h1 : p.scheme = req.scheme) (h2 : p.network = req.network)
    (h3 : amountOk p.scheme p.authorization.value req.maxAmountRequired = true)
    (h4 : p.authorization.to_ = req.payTo)
    (hwf : p.authorization.validAfter < p.authorization.validBefore) :
    (p.authorization.validBefore < now →
      verify p req facilitator cache now =
        ⟨.ok (invalidResult .expired), false, cache⟩) ∧
    (now < p.authorization.validAfter →
      verify p req facilitator cache now =
        ⟨.ok (invalidResult .not_yet_valid), false, cache⟩) := by
  constructor
  · intro hexp
    have h5 : p.authorization.validAfter ≤ now := by omega
    exact verify_of_checkLocal_some _ _ _ _ _ _
      (by simp [checkLocal, h1, h2, h1 ▸ h3, h4, Nat.not_lt.mpr h5, hexp])
  · intro hnyv
    exact verify_of_checkLocal_some _ _ _ _ _ _
      (by simp [checkLocal, h1, h2, h1 ▸ h3, h4, hnyv])

/-- Witness for C7: the sample payload (window 10..1000) is rejected as
expired at instant 2000 even though its signature is valid, and as
not_yet_valid at instant 5. -/
theorem c7_witness :
    verify samplePayload sampleReq none none 2000 =
      ⟨.ok (invalidResult .expired), false, none⟩ ∧
    verify samplePayload sampleReq none none 5 =
      ⟨.ok (invalidResult .not_yet_valid), false, none⟩ :=
  ⟨(c7_time_window samplePayload sampleReq none none 2000 (by decide) (by decide)
      (by decide) (by decide) (by decide)).1 (by decide),
    (c7_time_window samplePayload sampleReq none none 5 (by decide) (by decide)
      (by decide) (by decide) (by decide)).2 (by decide)⟩

/-- C9: the request classifier is a pure total function over all header
inputs, absent headers included: it returns browser exactly when the
User-Agent matches a known browser token and the Accept header contains the
HTML media type, and api in every other case — in particular a Chrome
user-agent with an HTML accept header is a browser request, a curl
user-agent with a JSON accept header is an API request, and absent headers
are an API request. -/
theorem c9_classifier_total (ua acc : Option String) :
    (classify ua acc = .browser ↔ ∃ u a, ua = some u ∧ acc = some a ∧
      browserTokens.any (fun tok => containsToken u tok) = true ∧
      containsToken a "text/html" = true) ∧
    (ua = none → classify ua acc = .api) ∧
    (acc = none → classify ua acc = .api) ∧
    (x402_is_browser_request ua acc = 1 ↔ classify ua acc = .browser) ∧
    (x402_is_browser_request ua acc = 0 ↔ classify ua acc = .api) ∧
    classify (some "Mozilla/5.0 (X11) Chrome/120") (some "text/html,application/xhtml+xml") =
      .browser ∧
    classify (some "curl/8.1") (some "application/json") = .api ∧
    classify none none = .api := by
  refine ⟨?_, ?_, ?_, ?_, ?_, by decide, by decide, rfl⟩
  · constructor
    · intro h
      rcases ua with _ | u
      · simp [classify] at h
      rcases acc with _ | a
      · simp [classify] at h
      by_cases hcond : (browserTokens.any (fun tok => containsToken u tok) &&
          containsToken a "text/html") = true
      · obtain ⟨hb, hh⟩ := Bool.and_eq_true_iff.mp hcond
        exact ⟨u, a, rfl, rfl, hb, hh⟩
      · simp only [classify, if_neg hcond] at h
        exact Classification.noConfusion h
    · rintro ⟨u, a, rfl, rfl, hb, hh⟩
      simp [classify, hb, hh]
  · rintro rfl
    rcases acc with _ | a <;> rfl
  · rintro rfl
    rcases ua with _ | u <;> rfl
  · cases h : classify ua acc <;> simp [x402_is_browser_request, h]
  · cases h : classify ua acc <;> simp [x402_is_browser_request, h]

/-- Witness for C9: the classifier applied with an absent User-Agent
returns api. -/
theorem c9_witness : classify none (some "text/html") = .api :=
  (c9_classifier_total none (some "text/html")).2.1 rfl

/-- C8: renderHtml and renderJson never emit caller-controlled description
or error strings unescaped in a way that alters the surrounding structure:
every character emitted for escaped content is free of HTML tag, attribute
and quote delimiters respectively of JSON quote and raw control characters,
and consequently the markup-delimiter structure of the HTML paywall and the
string-delimiter structure of the JSON challenge are identical for all
adversarial description and error strings. -/
theorem c8_renderers_escape_injection (req : PaymentRequirements)
    (d1 d2 e1 e2 : String) :
    (∀ s : String, (htmlEscape s).data.all htmlSafeChar = true) ∧
    (∀ s : String, (jsonEscape s).data.all jsonSafeChar = true) ∧
    (∀ c, htmlSafeChar c = false →
      countIn c (renderHtml { req with description := some d1 } (some e1)) =
        countIn c (renderHtml { req with description := some d2 } (some e2))) ∧
    countIn '"' (renderJson { req with description := some d1 } (some e1)) =
      countIn '"' (renderJson { req with description := some d2 } (some e2)) := by
  refine ⟨fun s => htmlEscapeList_safe s.data, fun s => jsonEscapeList_safe s.data, ?_, ?_⟩
  · intro c hc
    simp [renderHtml, countIn_append, countIn_htmlEscape _ _ hc, displayAmount]
  · have hq : jsonSafeChar '"' = false := by decide
    simp [renderJson, challengeJson, requirementsJson, serializeJson, serializeArr,
      serializeObj, countIn_append, countIn_jsonEscape _ _ hq]

/-- Witness for C8: a script-tag description and a quote-bearing error
string leave the number of tag-opening delimiters of the paywall unchanged
relative to empty strings. -/
theorem c8_witness :
    countIn '<'
        (renderHtml { sampleReq with description := some "<script>alert(1)</script>" }
          (some "\"pwn")) =
      countIn '<' (renderHtml { sampleReq with description := some "" } (some "")) :=
  (c8_renderers_escape_injection sampleReq "<script>alert(1)</script>" "" "\"pwn" "").2.2.1
    '<' (by decide)

/-- C10: every boundary function writing into a caller buffer reports the
distinct buffer-too-small code 4 exactly when the capacity passed in is
insufficient for the serialized result the core produced — so code 4
presupposes a successful core result and never arises from the core's own
outcome taxonomy — and otherwise writes the serialized result and reports
its actual length, which never exceeds the capacity. -/
theorem c10_buffer_boundary (payment : Option PaymentPayload)
    (requirements : Option PaymentRequirements) (facilitator : Option FacOracle)
    (cache : Option NonceCache) (now : Nat) (amount payTo : String)
    (network resource description : Option String) (testnet : Bool)
    (reqhtml reqjson : Option PaymentRequirements) (errorMsg : Option String)
    (cap : Nat) :
    (∀ (okCode : Nat) (s : String), okCode ≠ 4 →
      ((writeOut okCode s cap).code = 4 ↔ cap < s.length) ∧
      (s.length ≤ cap → writeOut okCode s cap = ⟨okCode, some s, s.length⟩)) ∧
    ((x402_verify_payment payment requirements facilitator cache now cap).1.code = 4 ↔
      ∃ p req r, payment = some p ∧ requirements = some req ∧
        (verify p req facilitator cache now).outcome = .ok r ∧
        cap < (serializeResult r).length) ∧
    ((x402_verify_payment payment requirements facilitator cache now cap).1.code = 0 ∨
        (x402_verify_payment payment requirements facilitator cache now cap).1.code = 2 →
      (x402_verify_payment payment requirements facilitator cache now cap).1.result_len ≤ cap ∧
      ∃ s, (x402_verify_payment payment requirements facilitator cache now cap).1.result = some s ∧
        s.length =
          (x402_verify_payment payment requirements facilitator cache now cap).1.result_len) ∧
    ((x402_create_requirements amount payTo network resource description testnet cap).code = 4 ↔
      ∃ req, buildRequirements amount payTo network resource description testnet = some req ∧
        cap < (serializeJson (requirementsJson req)).length) ∧
    ((x402_create_requirements amount payTo network resource description testnet cap).code = 0 →
      (x402_create_requirements amount payTo network resource description testnet cap).result_len ≤ cap ∧
      ∃ req, buildRequirements amount payTo network resource description testnet = some req ∧
        x402_create_requirements amount payTo network resource description testnet cap =
          ⟨0, some (serializeJson (requirementsJson req)),
            (serializeJson (requirementsJson req)).length⟩) ∧
    ((x402_generate_paywall_html reqhtml errorMsg cap).code = 4 ↔
      ∃ req, reqhtml = some req ∧ cap < (renderHtml req errorMsg).length) ∧
    ((x402_generate_paywall_html reqhtml errorMsg cap).code = 0 →
      (x402_generate_paywall_html reqhtml errorMsg cap).result_len ≤ cap ∧
      ∃ req, reqhtml = some req ∧
        x402_generate_paywall_html reqhtml errorMsg cap =
          ⟨0, some (renderHtml req errorMsg), (renderHtml req errorMsg).length⟩) ∧
    ((x402_generate_json_response reqjson errorMsg cap).code = 4 ↔
      ∃ req, reqjson = some req ∧ cap < (renderJson req errorMsg).length) ∧
    ((x402_generate_json_response reqjson errorMsg cap).code = 0 →
      (x402_generate_json_response reqjson errorMsg cap).result_len ≤ cap ∧
      ∃ req, reqjson = some req ∧
        x402_generate_json_response reqjson errorMsg cap =
          ⟨0, some (renderJson req errorMsg), (renderJson req errorMsg).length⟩) := by
  refine ⟨?_, ?_, ?_, ?_, ?_, ?_, ?_, ?_, ?_⟩
  · intro okCode s hne
    constructor
    · rw [writeOut]
      split_ifs with h
      · simp only [FfiOut.mk.injEq]
        constructor
        · intro hcode
          exact absurd hcode hne
        · intro hlt
          omega
      · simp only []
        constructor
        · intro _
          omega
        · intro _
          trivial
    · intro hle
      rw [writeOut, if_pos hle]
  · rcases payment with _ | p
    · simp [x402_verify_payment]
    rcases requirements with _ | req
    · simp [x402_verify_payment]
    rcases hto : (verify p req facilitator cache now).outcome with r | _
    · rw [x402_verify_payment]
      simp only [hto]
      rw [writeOut]
      split_ifs with h
      · constructor
        · intro hcode
          cases hr : r.isValid <;> rw [hr] at hcode <;> simp at hcode
        · rintro ⟨p2, req2, r2, hp, hq, hout, hlen⟩
          obtain rfl := Option.some.inj hp
          obtain rfl := Option.some.inj hq
          rw [hto] at hout
          obtain rfl := EngineOutcome.ok.inj hout
          omega
      · constructor
        · intro _
          exact ⟨p, req, r, rfl, rfl, hto, by omega⟩
        · intro _
          rfl
    · rw [x402_verify_payment]
      simp only [hto]
      constructor
      · intro hcode
        simp at hcode
      · rintro ⟨p2, req2, r2, hp, hq, hout, _⟩
        obtain rfl := Option.some.inj hp
        obtain rfl := Option.some.inj hq
        rw [hto] at hout
        exact EngineOutcome.noConfusion hout
  · rcases payment with _ | p
    · intro h
      simp [x402_verify_payment] at h
    rcases requirements with _ | req
    · intro h
      simp [x402_verify_payment] at h
    rcases hto : (verify p req facilitator cache now).outcome with r | _
    · rw [x402_verify_payment]
      simp only [hto]
      rw [writeOut]
      split_ifs with hfit
      · intro _
        exact ⟨hfit, serializeResult r, rfl, rfl⟩
      · intro h
        simp at h
    · rw [x402_verify_payment]
      simp only [hto]
      intro h
      simp at h
  · rcases hb : buildRequirements amount payTo network resource description testnet with _ | req
    · simp [x402_create_requirements, hb]
    · rw [x402_create_requirements]
      simp only [hb]
      rw [writeOut]
      split_ifs with h
      · constructor
        · intro hcode
          simp at hcode
        · rintro ⟨req2, hr, hlen⟩
          obtain rfl := Option.some.inj hr
          omega
      · constructor
        · intro _
          exact ⟨req, rfl, by omega⟩
        · intro _
          rfl
  · rcases hb : buildRequirements amount payTo network resource description testnet with _ | req
    · intro h
      simp [x402_create_requirements, hb] at h
    · rw [x402_create_requirements]
      simp only [hb]
      rw [writeOut]
      split_ifs with hfit
      · intro _
        exact ⟨hfit, req, rfl, rfl⟩
      · intro h
        simp at h
  · rcases reqhtml with _ | req
    · simp [x402_generate_paywall_html]
    · rw [x402_generate_paywall_html]
      rw [writeOut]
      split_ifs with h
      · constructor
        · intro hcode
          simp at hcode
        · rintro ⟨req2, hr, hlen⟩
          obtain rfl := Option.some.inj hr
          omega
      · constructor
        · intro _
          exact ⟨req, rfl, by omega⟩
        · intro _
          rfl
  · rcases reqhtml with _ | req
    · intro h
      simp [x402_generate_paywall_html] at h
    · rw [x402_generate_paywall_html]
      rw [writeOut]
      split_ifs with hfit
      · intro _
        exact ⟨hfit, req, rfl, rfl⟩
      · intro h
        simp at h
  · rcases reqjson with _ | req
    · simp [x402_generate_json_response]
    · rw [x402_generate_json_response]
      rw [writeOut]
      split_ifs with h
      · constructor
        · intro hcode
          simp at hcode
        · rintro ⟨req2, hr, hlen⟩
          obtain rfl := Option.some.inj hr
          omega
      · constructor
        · intro _
          exact ⟨req, rfl, by omega⟩
        · intro _
          rfl
  · rcases reqjson with _ | req
    · intro h
      simp [x402_generate_json_response] at h
    · rw [x402_generate_json_response]
      rw [writeOut]
      split_ifs with hfit
      · intro _
        exact ⟨hfit, req, rfl, rfl⟩
      · intro h
        simp at h

set_option maxRecDepth 8192 in
/-- Witness for C10: rendering the sample paywall into a 3-byte buffer
reports the distinct buffer-too-small code 4. -/
theorem c10_witness :
    (x402_generate_paywall_html (some sampleReq) none 3).code = 4 :=
  (c10_buffer_boundary none none none none 0 "" "" none none none false
    (some sampleReq) none none 3).2.2.2.2.2.1.mpr ⟨sampleReq, rfl, by decide⟩

end X402
